import Mathlib

/-!
Verification development for the Imagify image-compression core (src/app.js).

The JavaScript source is shallowly embedded: pure numeric code becomes Lean
functions over `ℕ`, `ℤ`, `ℚ` and `ℝ` (JS numbers are idealised as exact
rationals/reals; integer pixel bytes are `ℕ`), RGBA pixel buffers become an
index function together with the width and height, and the canvas/DOM plumbing
around each algorithm is reduced to the values it feeds into the algorithm
(file MIME type, image presence, entered max dimensions, the byte size an
encode would produce at a given quality).
-/

namespace Imagify

/-- A decoded RGBA bitmap: `data i` is the byte at flat index `i` of the
row-major RGBA buffer, whose meaningful length is `width * height * 4`
(pixel `p` occupies indices `4*p .. 4*p+3`, the alpha byte at `4*p+3`). -/
structure ImageData where
  width : ℕ
  height : ℕ
  data : ℕ → ℕ

/-! ## Dead-zone search (findDeadZoneThreshold, src/app.js lines 191-239 and 945-1008) -/

/-- The fixed descending quality ladder tested by the dead-zone search. -/
def testQualities : List ℕ := [99, 98, 97, 96, 95, 94, 93, 92, 91, 90, 88, 85, 80, 75, 70]

/-- One probe of the scan: the JS condition `blob && blob.size > this.originalSize`.
`sizeOf q` is the byte size the encoder produces at quality `q` at the fixed
target dimensions; `none` models a null blob (or a thrown error, which the
source treats the same way: threshold `q + 1`, stop). -/
def probeExceeds (sizeOf : ℕ → Option ℕ) (originalSize q : ℕ) : Bool :=
  match sizeOf q with
  | some s => decide (originalSize < s)
  | none => false

/-- The `for (const quality of testQualities)` loop. The accumulator is the
running `thresholdQuality` (initially 101): a probe that exceeds the reference
stores the candidate quality and continues; the first probe that does not
exceed returns the candidate quality plus one and stops. -/
def dzScan (sizeOf : ℕ → Option ℕ) (originalSize : ℕ) : List ℕ → ℕ → ℕ
  | [], acc => acc
  | q :: rest, _ =>
    if probeExceeds sizeOf originalSize q then dzScan sizeOf originalSize rest q
    else q + 1

/-! ## Resizer (calculateDisplaySize / calculateCompressionSize, lines 277-295) -/

/-- calculateDisplaySize: scale factor `min(maxWidth/w, maxHeight/h, 1)`,
output `max(1, round(dim * ratio))`, with `(0,0)` for missing dimensions.
JS `Math.round x` is `⌊x + 1/2⌋` for the non-negative values that occur here. -/
def calculateDisplaySize (originalWidth originalHeight maxWidth maxHeight : ℕ) : ℕ × ℕ :=
  if originalWidth = 0 ∨ originalHeight = 0 then (0, 0)
  else
    let ratio : ℚ :=
      min (min ((maxWidth : ℚ) / originalWidth) ((maxHeight : ℚ) / originalHeight)) 1
    (max 1 ⌊(originalWidth : ℚ) * ratio + 1 / 2⌋₊,
     max 1 ⌊(originalHeight : ℚ) * ratio + 1 / 2⌋₊)

/-- The JS idiom `parseInt(input) || fallback`: an empty/unparsable input
(`none`) or an entered `0` falls back to the natural dimension. -/
def orNatDefault (entered : Option ℕ) (fallback : ℕ) : ℕ :=
  match entered with
  | none => fallback
  | some m => if m = 0 then fallback else m

/-- calculateCompressionSize: same formula at the natural image size, with the
max-dimension inputs read from the UI and defaulted to the natural dimensions.
`hasImage = false` models `!this.originalImage`, giving `(0,0)`. -/
def calculateCompressionSize (hasImage : Bool) (naturalWidth naturalHeight : ℕ)
    (maxWidthInput maxHeightInput : Option ℕ) : ℕ × ℕ :=
  if hasImage = false then (0, 0)
  else
    let maxWidth := orNatDefault maxWidthInput naturalWidth
    let maxHeight := orNatDefault maxHeightInput naturalHeight
    let ratio : ℚ :=
      min (min ((maxWidth : ℚ) / naturalWidth) ((maxHeight : ℚ) / naturalHeight)) 1
    (max 1 ⌊(naturalWidth : ℚ) * ratio + 1 / 2⌋₊,
     max 1 ⌊(naturalHeight : ℚ) * ratio + 1 / 2⌋₊)

/-- findDeadZoneThreshold: degenerate inputs (missing image or file, zero
reference size, zero target dimensions) short-circuit to 101; otherwise the
ladder is scanned and the result clamped by `Math.max(1, Math.min(t, 101))`. -/
def findDeadZoneThreshold (hasImage hasFile : Bool) (originalSize : ℕ)
    (naturalWidth naturalHeight : ℕ) (maxWidthInput maxHeightInput : Option ℕ)
    (sizeOf : ℕ → Option ℕ) : ℕ :=
  if hasImage = false ∨ hasFile = false ∨ originalSize = 0 then 101
  else
    let wh := calculateCompressionSize hasImage naturalWidth naturalHeight
      maxWidthInput maxHeightInput
    if wh.1 = 0 ∨ wh.2 = 0 then 101
    else max 1 (min (dzScan sizeOf originalSize testQualities 101) 101)

/-! ## Metric engine: PSNR (calculatePSNR, lines 465-478 and 1265-1279) -/

/-- The pixels the PSNR loop accumulates: the loop skips a pixel whenever the
reference alpha byte satisfies `d1[i+3] < 255`. -/
def includedPixels (d1 : ImageData) : Finset ℕ :=
  (Finset.range (d1.width * d1.height)).filter fun i => ¬ d1.data (4 * i + 3) < 255

/-- Squared R,G,B error of one pixel, `(d1[i]-d2[i])**2 + ... ` (exact in `ℤ`). -/
def pixelSqErr (d1 d2 : ImageData) (i : ℕ) : ℤ :=
  ((d1.data (4 * i) : ℤ) - d2.data (4 * i)) ^ 2 +
  ((d1.data (4 * i + 1) : ℤ) - d2.data (4 * i + 1)) ^ 2 +
  ((d1.data (4 * i + 2) : ℤ) - d2.data (4 * i + 2)) ^ 2

/-- The accumulated sum of squared errors over the included pixels. -/
def psnrSSE (d1 d2 : ImageData) : ℤ := ∑ i ∈ includedPixels d1, pixelSqErr d1 d2 i

/-- The mean squared error `mse /= (pixelCount * 3)`. -/
def psnrMSE (d1 d2 : ImageData) : ℚ :=
  (psnrSSE d1 d2 : ℚ) / (((includedPixels d1).card : ℚ) * 3)

/-- calculatePSNR: 100 when no pixels were included or the MSE is below 1e-10,
otherwise `Math.max(0, 10 * Math.log10(255 ** 2 / mse))`. -/
noncomputable def calculatePSNR (d1 d2 : ImageData) : ℝ :=
  if (includedPixels d1).card = 0 then 100
  else if psnrMSE d1 d2 < 1 / 10 ^ 10 then 100
  else max 0 (10 * Real.logb 10 ((255 : ℝ) ^ 2 / (psnrMSE d1 d2 : ℝ)))

/-! ## Metric engine: SSIM (calculateSSIM, lines 480-534 and 1281-1347) -/

/-- Stabilisation constant `C1 = (K1 * L) ** 2` with `K1 = 0.01`, `L = 255`. -/
def ssimC1 : ℚ := (0.01 * 255) ^ 2

/-- Stabilisation constant `C2 = (K2 * L) ** 2` with `K2 = 0.03`, `L = 255`. -/
def ssimC2 : ℚ := (0.03 * 255) ^ 2

/-- Flat buffer index of pixel `(x, y)`: `(curY * width + curX) * 4`. -/
def pixIndex (width x y : ℕ) : ℕ := (y * width + x) * 4

/-- Luminance of the pixel starting at flat index `idx`:
`0.299 * d[idx] + 0.587 * d[idx+1] + 0.114 * d[idx+2]`. -/
def lum (d : ImageData) (idx : ℕ) : ℚ :=
  0.299 * d.data idx + 0.587 * d.data (idx + 1) + 0.114 * d.data (idx + 2)

/-- The pixels of the 8x8 window with top-left corner `(x, y)` that the inner
loops accumulate: offset pairs `(i, j)` with `0 ≤ i, j < 8`, skipping pixels
whose reference alpha byte is exactly zero (`d1[index + 3] === 0`). -/
def windowPixels (d1 : ImageData) (x y : ℕ) : Finset (ℕ × ℕ) :=
  (Finset.range 8 ×ˢ Finset.range 8).filter fun p =>
    d1.data (pixIndex d1.width (x + p.1) (y + p.2) + 3) ≠ 0

/-- `numPixels` of the window at `(x, y)`. -/
def winN (d1 : ImageData) (x y : ℕ) : ℕ := (windowPixels d1 x y).card

/-- `sumX`: sum of reference luminances over the included window pixels. -/
def winSumX (d1 : ImageData) (x y : ℕ) : ℚ :=
  ∑ p ∈ windowPixels d1 x y, lum d1 (pixIndex d1.width (x + p.1) (y + p.2))

/-- `sumY`: sum of compared-image luminances over the included window pixels. -/
def winSumY (d1 d2 : ImageData) (x y : ℕ) : ℚ :=
  ∑ p ∈ windowPixels d1 x y, lum d2 (pixIndex d1.width (x + p.1) (y + p.2))

/-- `sumX2`: sum of squared reference luminances. -/
def winSumX2 (d1 : ImageData) (x y : ℕ) : ℚ :=
  ∑ p ∈ windowPixels d1 x y, (lum d1 (pixIndex d1.width (x + p.1) (y + p.2))) ^ 2

/-- `sumY2`: sum of squared compared-image luminances. -/
def winSumY2 (d1 d2 : ImageData) (x y : ℕ) : ℚ :=
  ∑ p ∈ windowPixels d1 x y, (lum d2 (pixIndex d1.width (x + p.1) (y + p.2))) ^ 2

/-- `sumXY`: sum of products of the two luminances. -/
def winSumXY (d1 d2 : ImageData) (x y : ℕ) : ℚ :=
  ∑ p ∈ windowPixels d1 x y,
    lum d1 (pixIndex d1.width (x + p.1) (y + p.2)) *
      lum d2 (pixIndex d1.width (x + p.1) (y + p.2))

/-- The per-window SSIM value: means, variances (clamped to `≥ 0` by
`Math.max(0, ...)`) and covariance of luminance, then the standard
two-constant formula. Written with the window sums named above. -/
def windowSSIM (d1 d2 : ImageData) (x y : ℕ) : ℚ :=
  ((2 * (winSumX d1 x y / (winN d1 x y : ℚ)) * (winSumY d1 d2 x y / (winN d1 x y : ℚ)) + ssimC1) *
      (2 * (winSumXY d1 d2 x y / (winN d1 x y : ℚ) -
            winSumX d1 x y / (winN d1 x y : ℚ) * (winSumY d1 d2 x y / (winN d1 x y : ℚ))) + ssimC2)) /
    (((winSumX d1 x y / (winN d1 x y : ℚ)) ^ 2 + (winSumY d1 d2 x y / (winN d1 x y : ℚ)) ^ 2 + ssimC1) *
      (max 0 (winSumX2 d1 x y / (winN d1 x y : ℚ) - (winSumX d1 x y / (winN d1 x y : ℚ)) ^ 2) +
        max 0 (winSumY2 d1 d2 x y / (winN d1 x y : ℚ) - (winSumY d1 d2 x y / (winN d1 x y : ℚ)) ^ 2) + ssimC2))

/-- The grid of window top-left indices the two outer loops visit: for
`width, height ≥ 8`, `y = 8 * wy` runs while `8 * wy ≤ height - 8`, i.e.
`wy < height / 8` (integer division), and likewise for `x`. -/
def windowGrid (width height : ℕ) : Finset (ℕ × ℕ) :=
  Finset.range (width / 8) ×ˢ Finset.range (height / 8)

/-- The windows that contribute to the average: those with at least one
included pixel (`windowHasOpaquePixel` is set exactly when `numPixels` is
incremented, so the source guard `!windowHasOpaquePixel || numPixels === 0`
is `numPixels = 0`). -/
def contributingWindows (d1 : ImageData) : Finset (ℕ × ℕ) :=
  (windowGrid d1.width d1.height).filter fun p => winN d1 (8 * p.1) (8 * p.2) ≠ 0

/-- calculateSSIM: images narrower or shorter than one 8x8 window return 1;
otherwise the mean of the per-window SSIM values over the contributing
windows, clamped by `Math.max(0, Math.min(1, ...))`, or 1 when no window
contributed. -/
def calculateSSIM (d1 d2 : ImageData) : ℚ :=
  if d1.width < 8 ∨ d1.height < 8 then 1
  else if (contributingWindows d1).card = 0 then 1
  else
    max 0 (min 1
      ((∑ p ∈ contributingWindows d1, windowSSIM d1 d2 (8 * p.1) (8 * p.2)) /
        ((contributingWindows d1).card : ℚ)))

/-! ## Heat map (updateHeatMap / getHeatMapColor, lines 537-621 and 1350-1452) -/

/-- JS `Math.round` for the non-negative values occurring here: `⌊x + 1/2⌋`. -/
def jsRound (x : ℚ) : ℤ := ⌊x + 1 / 2⌋

/-- The fixed 5-stop color ramp blue, cyan, green, yellow, red. -/
def heatStops : List (ℤ × ℤ × ℤ) :=
  [(0, 0, 255), (0, 255, 255), (0, 255, 0), (255, 255, 0), (255, 0, 0)]

/-- The clamp `intensity = Math.max(0, Math.min(1, intensity))`. -/
def heatClamp (intensity : ℚ) : ℚ := max 0 (min 1 intensity)

/-- Position in the ramp, `p = intensity * (colors.length - 1)`. -/
def heatPos (intensity : ℚ) : ℚ := heatClamp intensity * ((heatStops.length : ℚ) - 1)

/-- The lower stop index `i = Math.floor(p)` (`p ≥ 0` after the clamp). -/
def heatIndex (intensity : ℚ) : ℕ := ⌊heatPos intensity⌋₊

/-- getHeatMapColor: piecewise-linear interpolation between adjacent ramp
stops; `j = Math.min(i + 1, colors.length - 1)` and `t = p - i`. -/
def getHeatMapColor (intensity : ℚ) : ℤ × ℤ × ℤ :=
  let p := heatPos intensity
  let i := heatIndex intensity
  let j := min (i + 1) (heatStops.length - 1)
  let t := p - (i : ℚ)
  let ci := heatStops.getD i (0, 0, 0)
  let cj := heatStops.getD j (0, 0, 0)
  (jsRound ((ci.1 : ℚ) * (1 - t) + (cj.1 : ℚ) * t),
   jsRound ((ci.2.1 : ℚ) * (1 - t) + (cj.2.1 : ℚ) * t),
   jsRound ((ci.2.2 : ℚ) * (1 - t) + (cj.2.2 : ℚ) * t))

/-- Mean absolute R,G,B difference of pixel `i`,
`(|o[i]-c[i]| + |o[i+1]-c[i+1]| + |o[i+2]-c[i+2]|) / 3`. -/
def hmDiff (orig comp : ImageData) (i : ℕ) : ℚ :=
  ((|(orig.data (4 * i) : ℚ) - comp.data (4 * i)|) +
   (|(orig.data (4 * i + 1) : ℚ) - comp.data (4 * i + 1)|) +
   (|(orig.data (4 * i + 2) : ℚ) - comp.data (4 * i + 2)|)) / 3

/-- Normalised intensity `Math.min(1, diff / 255)`. -/
def hmIntensity (orig comp : ImageData) (i : ℕ) : ℚ := min 1 (hmDiff orig comp i / 255)

/-- One output pixel of the updateHeatMap loop: reference pixels that are not
fully opaque become fully transparent `(0,0,0,0)`; otherwise the ramp color of
the intensity with alpha `Math.max(30, intensity * 225)`. -/
def heatMapPixel (orig comp : ImageData) (i : ℕ) : ℤ × ℤ × ℤ × ℚ :=
  if orig.data (4 * i + 3) < 255 then (0, 0, 0, 0)
  else
    ((getHeatMapColor (hmIntensity orig comp i)).1,
     (getHeatMapColor (hmIntensity orig comp i)).2.1,
     (getHeatMapColor (hmIntensity orig comp i)).2.2,
     max 30 (hmIntensity orig comp i * 225))

/-! ## Flattening before lossy encode (compressImage line 327, dead-zone probe line 210) -/

/-- The compression path fills the canvas white before drawing exactly when
`this.originalFile.type === 'image/png'`. -/
def flattenForCompression (fileType : String) : Bool := fileType == "image/png"

/-- The dead-zone probe path fills the canvas white before drawing exactly
when `this.originalFile.type === 'image/png'`. -/
def flattenForDeadZoneProbe (fileType : String) : Bool := fileType == "image/png"

/-- Modelled from the spec: which accepted input MIME types carry an alpha
channel. The validator admits every `image/*` file (its message names JPG,
PNG and WebP); of these, PNG and WebP support alpha and JPEG does not. -/
def formatSupportsAlpha (fileType : String) : Bool :=
  fileType == "image/png" || fileType == "image/webp"

/-! ## Concrete instances used by witnesses and counterexamples -/

/-- Probe sizes of end-to-end scenario C: every quality yields 50001 bytes
except quality 80, which yields 49000, against reference size 50000. -/
def scenarioCSizes : ℕ → Option ℕ := fun q => if q = 80 then some 49000 else some 50001

/-- Probe sizes where every quality exceeds a 50000-byte reference. -/
def allLargeSizes : ℕ → Option ℕ := fun _ => some 50001

/-- Probe sizes where every quality undershoots the reference. -/
def allSmallSizes : ℕ → Option ℕ := fun _ => some 1

/-- A 1x1 fully-opaque white bitmap (every byte 255). -/
def opaqueWhite1 : ImageData := ⟨1, 1, fun _ => 255⟩

/-- A 1x1 bitmap whose single pixel has alpha 0. -/
def clearPixel1 : ImageData := ⟨1, 1, fun _ => 0⟩

/-- A 300x300 fully-opaque black bitmap. -/
def bigBlack : ImageData := ⟨300, 300, fun i => if i % 4 = 3 then 255 else 0⟩

/-- The same 300x300 bitmap except the red byte of pixel 0 is 1 instead of 0. -/
def bigBlackDot : ImageData :=
  ⟨300, 300, fun i => if i % 4 = 3 then 255 else if i = 0 then 1 else 0⟩

/-- An 8x8 fully-opaque black bitmap. -/
def blackOpaque8 : ImageData := ⟨8, 8, fun i => if i % 4 = 3 then 255 else 0⟩

/-- An 8x8 fully-opaque white bitmap. -/
def whiteOpaque8 : ImageData := ⟨8, 8, fun _ => 255⟩

/-- A 4x4 fully-opaque white bitmap (smaller than one SSIM window). -/
def smallWhite4 : ImageData := ⟨4, 4, fun _ => 255⟩

/-! ## Helper lemmas: dead-zone search -/

theorem calcCompressionSize_pos (nw nh : ℕ) (mwI mhI : Option ℕ) :
    0 < (calculateCompressionSize true nw nh mwI mhI).1 ∧
      0 < (calculateCompressionSize true nw nh mwI mhI).2 := by
  constructor <;> simp [calculateCompressionSize]

theorem findDZ_run (sizeOf : ℕ → Option ℕ) (originalSize nw nh : ℕ)
    (mwI mhI : Option ℕ) (h : originalSize ≠ 0) :
    findDeadZoneThreshold true true originalSize nw nh mwI mhI sizeOf
      = max 1 (min (dzScan sizeOf originalSize testQualities 101) 101) := by
  have h1 := (calcCompressionSize_pos nw nh mwI mhI).1.ne'
  have h2 := (calcCompressionSize_pos nw nh mwI mhI).2.ne'
  simp [findDeadZoneThreshold, h, h1, h2]

theorem dzScan_append (sizeOf : ℕ → Option ℕ) (originalSize : ℕ) (l1 l2 : List ℕ)
    (q : ℕ) (acc : ℕ)
    (hex : ∀ x ∈ l1, probeExceeds sizeOf originalSize x = true)
    (hstop : probeExceeds sizeOf originalSize q = false) :
    dzScan sizeOf originalSize (l1 ++ q :: l2) acc = q + 1 := by
  induction l1 generalizing acc with
  | nil => simp [dzScan, hstop]
  | cons a l ih =>
    have ha := hex a (by simp)
    simpa [dzScan, ha] using ih a (fun x hx => hex x (by simp [hx]))

theorem dzScan_all_exceed (sizeOf : ℕ → Option ℕ) (originalSize : ℕ) (l : List ℕ)
    (acc : ℕ) (hex : ∀ x ∈ l, probeExceeds sizeOf originalSize x = true) :
    dzScan sizeOf originalSize l acc = l.getLastD acc := by
  induction l generalizing acc with
  | nil => rfl
  | cons a l ih =>
    have ha := hex a (by simp)
    simp only [dzScan, ha, if_true, List.getLastD_cons]
    exact ih a (fun x hx => hex x (by simp [hx]))

/-! ## Claim theorems: dead-zone search -/

/-- C1: the dead-zone search scans the fixed descending ladder 99..70; a
candidate whose encoded size exceeds the reference continues the scan, and
the first candidate whose encoded size does not exceed the reference stops
the scan with result that candidate plus one. -/
theorem deadZone_scan_stops_at_first_nonexceeding (sizeOf : ℕ → Option ℕ)
    (originalSize nw nh : ℕ) (mwI mhI : Option ℕ) (l1 l2 : List ℕ) (q : ℕ)
    (hsize : originalSize ≠ 0)
    (hsplit : testQualities = l1 ++ q :: l2)
    (hex : ∀ x ∈ l1, probeExceeds sizeOf originalSize x = true)
    (hstop : probeExceeds sizeOf originalSize q = false) :
    findDeadZoneThreshold true true originalSize nw nh mwI mhI sizeOf = q + 1 := by
  rw [findDZ_run sizeOf originalSize nw nh mwI mhI hsize, hsplit,
    dzScan_append sizeOf originalSize l1 l2 q 101 hex hstop]
  have hq : q ≤ 99 := by
    have hmem : q ∈ testQualities := by rw [hsplit]; simp
    have hall : ∀ x ∈ testQualities, x ≤ 99 := by decide
    exact hall q hmem
  omega

/-- C1 witness: scenario C with reference 50000 bytes, probes 99..85 all at
50001 bytes and quality 80 at 49000 bytes, gives threshold 81. -/
theorem deadZone_scan_stops_witness :
    findDeadZoneThreshold true true 50000 800 600 none none scenarioCSizes = 81 := by
  have h := deadZone_scan_stops_at_first_nonexceeding scenarioCSizes 50000 800 600
    none none [99, 98, 97, 96, 95, 94, 93, 92, 91, 90, 88, 85] [75, 70] 80
    (by norm_num) rfl (by decide) (by decide)
  simpa using h

/-- C2 counterexample: with every probe exceeding the reference, the search
returns 70 (the lowest tested quality itself), not 71 as claimed. -/
theorem deadZone_allExceed_counterexample :
    (∀ q ∈ testQualities, probeExceeds allLargeSizes 50000 q = true) ∧
    findDeadZoneThreshold true true 50000 800 600 none none allLargeSizes = 70 ∧
    findDeadZoneThreshold true true 50000 800 600 none none allLargeSizes ≠ 71 := by
  have hrun := findDZ_run allLargeSizes 50000 800 600 none none (by norm_num)
  have h70 : findDeadZoneThreshold true true 50000 800 600 none none allLargeSizes = 70 := by
    rw [hrun]; decide
  exact ⟨by decide, h70, by rw [h70]; norm_num⟩

/-- C2 (amended): if every tested candidate exceeds the reference the search
returns the lowest tested quality, 70 (not 71); if the first candidate 99
already does not exceed, it returns 100; and the result always lies in
[1, 101]. -/
theorem deadZone_boundary_behavior (sizeOf : ℕ → Option ℕ) (originalSize nw nh : ℕ)
    (mwI mhI : Option ℕ) :
    (originalSize ≠ 0 →
      ((∀ q ∈ testQualities, probeExceeds sizeOf originalSize q = true) →
        findDeadZoneThreshold true true originalSize nw nh mwI mhI sizeOf = 70) ∧
      (probeExceeds sizeOf originalSize 99 = false →
        findDeadZoneThreshold true true originalSize nw nh mwI mhI sizeOf = 100)) ∧
    ∀ hasImage hasFile : Bool,
      1 ≤ findDeadZoneThreshold hasImage hasFile originalSize nw nh mwI mhI sizeOf ∧
      findDeadZoneThreshold hasImage hasFile originalSize nw nh mwI mhI sizeOf ≤ 101 := by
  constructor
  · intro hsize
    constructor
    · intro hex
      rw [findDZ_run sizeOf originalSize nw nh mwI mhI hsize,
        dzScan_all_exceed sizeOf originalSize testQualities 101 hex]
      decide
    · intro hstop
      rw [findDZ_run sizeOf originalSize nw nh mwI mhI hsize]
      show max 1 (min (dzScan sizeOf originalSize (99 :: _) 101) 101) = 100
      simp [dzScan, hstop]
  · intro hasImage hasFile
    unfold findDeadZoneThreshold
    dsimp only
    split
    · omega
    · split
      · omega
      · exact ⟨le_max_left 1 _, max_le (by norm_num) (min_le_right _ 101)⟩

/-- C2 witness: the amended boundary behavior evaluated on concrete inputs:
all probes exceeding gives 70, a non-exceeding first probe gives 100, and the
bound holds there. -/
theorem deadZone_boundary_witness :
    findDeadZoneThreshold true true 50000 800 600 none none allLargeSizes = 70 ∧
    findDeadZoneThreshold true true 50000 800 600 none none allSmallSizes = 100 ∧
    1 ≤ findDeadZoneThreshold false true 50000 800 600 none none allSmallSizes ∧
    findDeadZoneThreshold false true 50000 800 600 none none allSmallSizes ≤ 101 := by
  refine ⟨((deadZone_boundary_behavior allLargeSizes 50000 800 600 none none).1
      (by norm_num)).1 (by decide),
    ((deadZone_boundary_behavior allSmallSizes 50000 800 600 none none).1
      (by norm_num)).2 (by decide),
    ((deadZone_boundary_behavior allSmallSizes 50000 800 600 none none).2 false true).1,
    ((deadZone_boundary_behavior allSmallSizes 50000 800 600 none none).2 false true).2⟩

/-! ## Helper lemmas: resizer -/

theorem floor_half_eq (n : ℕ) : ⌊(n : ℚ) + 1 / 2⌋₊ = n := by
  rw [Nat.floor_eq_iff (by positivity)]
  constructor
  · linarith [Nat.cast_nonneg (α := ℚ) n]
  · linarith

theorem roundShrink_le (n : ℕ) (r : ℚ) (hr : r ≤ 1) (hn : 0 < n) :
    max 1 ⌊(n : ℚ) * r + 1 / 2⌋₊ ≤ n := by
  have h1 : (n : ℚ) * r ≤ (n : ℚ) := by nlinarith [Nat.cast_nonneg (α := ℚ) n]
  have h2 := Nat.floor_mono (α := ℚ) (by linarith : (n : ℚ) * r + 1 / 2 ≤ (n : ℚ) + 1 / 2)
  rw [floor_half_eq] at h2
  omega

theorem roundExact (n : ℕ) (hn : 0 < n) : max 1 ⌊(n : ℚ) * 1 + 1 / 2⌋₊ = n := by
  rw [mul_one, floor_half_eq]
  omega

theorem displaySize_eval (ow oh mw mh : ℕ) (h : ¬(ow = 0 ∨ oh = 0)) :
    calculateDisplaySize ow oh mw mh =
      (max 1 ⌊(ow : ℚ) * min (min ((mw : ℚ) / ow) ((mh : ℚ) / oh)) 1 + 1 / 2⌋₊,
       max 1 ⌊(oh : ℚ) * min (min ((mw : ℚ) / ow) ((mh : ℚ) / oh)) 1 + 1 / 2⌋₊) := by
  simp only [calculateDisplaySize, if_neg h]

theorem ratio_one (ow oh mw mh : ℕ) (hw : 0 < ow) (hh : 0 < oh)
    (h1 : ow ≤ mw) (h2 : oh ≤ mh) :
    min (min ((mw : ℚ) / ow) ((mh : ℚ) / oh)) 1 = 1 := by
  have hwq : (0 : ℚ) < ow := by exact_mod_cast hw
  have hhq : (0 : ℚ) < oh := by exact_mod_cast hh
  have a1 : (1 : ℚ) ≤ (mw : ℚ) / ow := by
    rw [le_div_iff₀ hwq, one_mul]
    exact_mod_cast h1
  have a2 : (1 : ℚ) ≤ (mh : ℚ) / oh := by
    rw [le_div_iff₀ hhq, one_mul]
    exact_mod_cast h2
  exact min_eq_right (le_min a1 a2)

theorem compressionSize_eq_displaySize (ow oh : ℕ) (mwI mhI : Option ℕ)
    (h : ¬(ow = 0 ∨ oh = 0)) :
    calculateCompressionSize true ow oh mwI mhI =
      calculateDisplaySize ow oh (orNatDefault mwI ow) (orNatDefault mhI oh) := by
  simp only [calculateCompressionSize, calculateDisplaySize, if_neg h]
  norm_num

/-! ## Claim theorem: resizer (C7) -/

/-- C7: the target-size computation never upscales: for positive source
dimensions each output dimension is at most the source dimension, and when
the max constraints are unset or at least the source dimensions the result is
exactly the source dimensions. -/
theorem resizer_never_upscales (ow oh mw mh : ℕ) (mwI mhI : Option ℕ)
    (hw : 0 < ow) (hh : 0 < oh) :
    (calculateDisplaySize ow oh mw mh).1 ≤ ow ∧
    (calculateDisplaySize ow oh mw mh).2 ≤ oh ∧
    (ow ≤ mw → oh ≤ mh → calculateDisplaySize ow oh mw mh = (ow, oh)) ∧
    (calculateCompressionSize true ow oh mwI mhI).1 ≤ ow ∧
    (calculateCompressionSize true ow oh mwI mhI).2 ≤ oh ∧
    calculateCompressionSize true ow oh none none = (ow, oh) ∧
    ∀ mw2 mh2 : ℕ, ow ≤ mw2 → oh ≤ mh2 →
      calculateCompressionSize true ow oh (some mw2) (some mh2) = (ow, oh) := by
  have hcond : ¬(ow = 0 ∨ oh = 0) := by omega
  have hbound : ∀ mw3 mh3 : ℕ, (calculateDisplaySize ow oh mw3 mh3).1 ≤ ow ∧
      (calculateDisplaySize ow oh mw3 mh3).2 ≤ oh := by
    intro mw3 mh3
    rw [displaySize_eval ow oh mw3 mh3 hcond]
    exact ⟨roundShrink_le ow _ (min_le_right _ _) hw,
      roundShrink_le oh _ (min_le_right _ _) hh⟩
  have hexact : ∀ mw3 mh3 : ℕ, ow ≤ mw3 → oh ≤ mh3 →
      calculateDisplaySize ow oh mw3 mh3 = (ow, oh) := by
    intro mw3 mh3 h1 h2
    rw [displaySize_eval ow oh mw3 mh3 hcond, ratio_one ow oh mw3 mh3 hw hh h1 h2,
      roundExact ow hw, roundExact oh hh]
  refine ⟨(hbound mw mh).1, (hbound mw mh).2, hexact mw mh, ?_, ?_, ?_, ?_⟩
  · rw [compressionSize_eq_displaySize ow oh mwI mhI hcond]
    exact (hbound _ _).1
  · rw [compressionSize_eq_displaySize ow oh mwI mhI hcond]
    exact (hbound _ _).2
  · rw [compressionSize_eq_displaySize ow oh none none hcond]
    exact hexact ow oh le_rfl le_rfl
  · intro mw2 mh2 h1 h2
    rw [compressionSize_eq_displaySize ow oh (some mw2) (some mh2) hcond]
    have e1 : orNatDefault (some mw2) ow = mw2 := by
      simp [orNatDefault]
      omega
    have e2 : orNatDefault (some mh2) oh = mh2 := by
      simp [orNatDefault]
      omega
    rw [e1, e2]
    exact hexact mw2 mh2 h1 h2

/-- C7 witness: an 800x600 source with max constraints 1000x1000 and with no
constraints keeps its dimensions, and a constrained call never upscales. -/
theorem resizer_never_upscales_witness :
    calculateDisplaySize 800 600 1000 1000 = (800, 600) ∧
    calculateCompressionSize true 800 600 none none = (800, 600) ∧
    (calculateDisplaySize 800 600 400 400).1 ≤ 800 := by
  have h := resizer_never_upscales 800 600 1000 1000 none none (by norm_num) (by norm_num)
  have h2 := resizer_never_upscales 800 600 400 400 none none (by norm_num) (by norm_num)
  exact ⟨h.2.2.1 (by norm_num) (by norm_num), h.2.2.2.2.2.1, h2.1⟩

/-! ## Helper lemmas: PSNR -/

theorem pixelSqErr_self (d : ImageData) (i : ℕ) : pixelSqErr d d i = 0 := by
  simp [pixelSqErr]

theorem psnrSSE_self (d : ImageData) : psnrSSE d d = 0 := by
  simp [psnrSSE, pixelSqErr_self]

/-! ## Claim theorems: PSNR (C3, C4) -/

/-- C4: PSNR returns 100 when no pixels are included or the MSE is below
1e-10, otherwise max(0, 10*log10(255^2/MSE)); pixels whose reference alpha is
below 255 contribute nothing (the value only depends on the compared image at
included pixels); and psnr(X, X) = 100 for any fully-opaque bitmap X. -/
theorem psnr_exclusion_and_self (d1 d2 d2b X : ImageData) :
    ((∀ i, i < X.width * X.height → X.data (4 * i + 3) = 255) →
      calculatePSNR X X = 100) ∧
    ((includedPixels d1).card = 0 → calculatePSNR d1 d2 = 100) ∧
    ((includedPixels d1).card ≠ 0 → psnrMSE d1 d2 < 1 / 10 ^ 10 →
      calculatePSNR d1 d2 = 100) ∧
    ((includedPixels d1).card ≠ 0 → ¬ psnrMSE d1 d2 < 1 / 10 ^ 10 →
      calculatePSNR d1 d2 =
        max 0 (10 * Real.logb 10 ((255 : ℝ) ^ 2 / (psnrMSE d1 d2 : ℝ)))) ∧
    ((∀ i ∈ includedPixels d1,
        d2.data (4 * i) = d2b.data (4 * i) ∧
        d2.data (4 * i + 1) = d2b.data (4 * i + 1) ∧
        d2.data (4 * i + 2) = d2b.data (4 * i + 2)) →
      calculatePSNR d1 d2 = calculatePSNR d1 d2b) := by
  refine ⟨?_, ?_, ?_, ?_, ?_⟩
  · intro _
    have hmse : psnrMSE X X = 0 := by
      simp [psnrMSE, psnrSSE_self]
    rcases eq_or_ne (includedPixels X).card 0 with h0 | h0
    · simp [calculatePSNR, h0]
    · simp [calculatePSNR, h0, hmse]
  · intro h0
    simp [calculatePSNR, h0]
  · intro h0 hsmall
    rw [calculatePSNR, if_neg h0, if_pos hsmall]
  · intro h0 hsmall
    rw [calculatePSNR, if_neg h0, if_neg hsmall]
  · intro hagree
    have hsse : psnrSSE d1 d2 = psnrSSE d1 d2b := by
      refine Finset.sum_congr rfl fun i hi => ?_
      obtain ⟨e0, e1, e2⟩ := hagree i hi
      simp [pixelSqErr, e0, e1, e2]
    unfold calculatePSNR psnrMSE
    rw [hsse]

/-- C4 witness: a concrete fully-opaque 1x1 bitmap compared with itself has
PSNR exactly 100. -/
theorem psnr_exclusion_and_self_witness : calculatePSNR opaqueWhite1 opaqueWhite1 = 100 :=
  (psnr_exclusion_and_self opaqueWhite1 opaqueWhite1 opaqueWhite1 opaqueWhite1).1
    fun _ _ => rfl

/-- C3 (amended): the PSNR returned by the metric engine is a real number and
is always non-negative; it is not bounded by 100 in general. -/
theorem psnr_nonneg (d1 d2 : ImageData) : 0 ≤ calculatePSNR d1 d2 := by
  unfold calculatePSNR
  split
  · norm_num
  · split
    · norm_num
    · exact le_max_left 0 _

/-- C3 counterexample: a 300x300 fully-opaque pair of bitmaps that differ by
one unit in a single channel of a single pixel has PSNR strictly greater than
100 (about 102.4 dB), refuting the claimed cap of 100. -/
theorem psnr_exceeds_100_counterexample : 100 < calculatePSNR bigBlack bigBlackDot := by
  have hinc : includedPixels bigBlack = Finset.range (300 * 300) := by
    apply Finset.filter_true_of_mem
    intro i _
    have hmod3 : (4 * i + 3) % 4 = 3 := by omega
    simp [bigBlack, hmod3]
  have hcard : (includedPixels bigBlack).card = 90000 := by
    rw [hinc, Finset.card_range]
  have hsse : psnrSSE bigBlack bigBlackDot = 1 := by
    rw [psnrSSE, hinc]
    have hterm : ∀ i ∈ Finset.range (300 * 300),
        pixelSqErr bigBlack bigBlackDot i = if i = 0 then 1 else 0 := by
      intro i _
      rcases eq_or_ne i 0 with rfl | hi
      · norm_num [pixelSqErr, bigBlack, bigBlackDot]
      · have h0 : ¬ (4 * i) % 4 = 3 := by omega
        have h1 : ¬ (4 * i + 1) % 4 = 3 := by omega
        have h2 : ¬ (4 * i + 2) % 4 = 3 := by omega
        have n0 : ¬ 4 * i = 0 := by omega
        have n1 : ¬ 4 * i + 1 = 0 := by omega
        have n2 : ¬ 4 * i + 2 = 0 := by omega
        simp [pixelSqErr, bigBlack, bigBlackDot, h0, h1, h2, n0, n1, n2, hi]
    rw [Finset.sum_congr rfl hterm, Finset.sum_ite_eq' (Finset.range (300 * 300)) 0 fun _ => 1]
    norm_num
  have hmse : psnrMSE bigBlack bigBlackDot = 1 / 270000 := by
    rw [psnrMSE, hsse, hcard]
    norm_num
  have hmse_big : ¬ psnrMSE bigBlack bigBlackDot < 1 / 10 ^ 10 := by
    rw [hmse]
    norm_num
  have hcard0 : (includedPixels bigBlack).card ≠ 0 := by
    rw [hcard]
    norm_num
  rw [calculatePSNR, if_neg hcard0, if_neg hmse_big]
  have harg : (255 : ℝ) ^ 2 / ((psnrMSE bigBlack bigBlackDot : ℚ) : ℝ) = 17556750000 := by
    rw [hmse]
    push_cast
    norm_num
  rw [harg]
  have hlog : (10 : ℝ) < Real.logb 10 17556750000 := by
    rw [Real.lt_logb_iff_rpow_lt (by norm_num) (by norm_num)]
    have hpow : (10 : ℝ) ^ (10 : ℝ) = (10 : ℝ) ^ (10 : ℕ) := by
      rw [← Real.rpow_natCast 10 10]
      norm_num
    rw [hpow]
    norm_num
  have h100 : (100 : ℝ) < 10 * Real.logb 10 17556750000 := by linarith
  exact lt_of_lt_of_le h100 (le_max_right 0 _)

/-! ## Helper lemmas: SSIM -/

theorem winSumY_self (d : ImageData) (x y : ℕ) : winSumY d d x y = winSumX d x y := rfl

theorem winSumY2_self (d : ImageData) (x y : ℕ) : winSumY2 d d x y = winSumX2 d x y := rfl

theorem winSumXY_self (d : ImageData) (x y : ℕ) : winSumXY d d x y = winSumX2 d x y := by
  unfold winSumXY winSumX2
  exact Finset.sum_congr rfl fun p _ => (sq _).symm

theorem ssimC1_pos : (0 : ℚ) < ssimC1 := by norm_num [ssimC1]

theorem ssimC2_pos : (0 : ℚ) < ssimC2 := by norm_num [ssimC2]

/-- The SSIM formula evaluated at identical statistics is exactly 1, given
the Cauchy-Schwarz bound that makes the raw variance non-negative. -/
theorem ssim_formula_self (S Q n : ℚ) (hn : 0 < n) (hcs : S ^ 2 ≤ n * Q) :
    ((2 * (S / n) * (S / n) + ssimC1) *
        (2 * (Q / n - S / n * (S / n)) + ssimC2)) /
      (((S / n) ^ 2 + (S / n) ^ 2 + ssimC1) *
        (max 0 (Q / n - (S / n) ^ 2) + max 0 (Q / n - (S / n) ^ 2) + ssimC2)) = 1 := by
  have hv : (S / n) ^ 2 ≤ Q / n := by
    rw [div_pow, div_le_div_iff₀ (by positivity) hn]
    calc S ^ 2 * n ≤ (n * Q) * n := mul_le_mul_of_nonneg_right hcs hn.le
      _ = Q * n ^ 2 := by ring
  have hclamp : max 0 (Q / n - (S / n) ^ 2) = Q / n - (S / n) ^ 2 :=
    max_eq_right (by linarith)
  rw [hclamp]
  have hpos1 : 0 < (S / n) ^ 2 + (S / n) ^ 2 + ssimC1 := by
    have := ssimC1_pos
    nlinarith [sq_nonneg (S / n)]
  have hpos2 : 0 < (Q / n - (S / n) ^ 2) + (Q / n - (S / n) ^ 2) + ssimC2 := by
    have := ssimC2_pos
    nlinarith
  rw [div_eq_one_iff_eq (mul_pos hpos1 hpos2).ne']
  ring

theorem contributing_mem_grid (d1 : ImageData) :
    ∀ p ∈ contributingWindows d1, p ∈ windowGrid d1.width d1.height := by
  intro p hp
  unfold contributingWindows at hp
  exact (Finset.mem_filter.mp hp).1

theorem contributing_winN (d1 : ImageData) :
    ∀ p ∈ contributingWindows d1, winN d1 (8 * p.1) (8 * p.2) ≠ 0 := by
  intro p hp
  unfold contributingWindows at hp
  exact (Finset.mem_filter.mp hp).2

theorem windowSSIM_self (d : ImageData) (x y : ℕ) (h : winN d x y ≠ 0) :
    windowSSIM d d x y = 1 := by
  have hn : (0 : ℚ) < (winN d x y : ℚ) := by
    exact_mod_cast Nat.pos_of_ne_zero h
  have hcs : winSumX d x y ^ 2 ≤ (winN d x y : ℚ) * winSumX2 d x y :=
    sq_sum_le_card_mul_sum_sq
  rw [windowSSIM, winSumY_self, winSumY2_self, winSumXY_self]
  exact ssim_formula_self (winSumX d x y) (winSumX2 d x y) ((winN d x y : ℚ)) hn hcs

/-! ## Claim theorems: SSIM (C5, C6) -/

/-- C6: ssim(X, X) = 1 for any bitmap with at least one fully-within-bounds
8x8 window containing a pixel of nonzero reference alpha; and for every input
pair the overall result is clamped to [0, 1] (1 when no window contributes). -/
theorem ssim_self_and_bounds (X d1 d2 : ImageData) :
    ((contributingWindows X).Nonempty → calculateSSIM X X = 1) ∧
    0 ≤ calculateSSIM d1 d2 ∧ calculateSSIM d1 d2 ≤ 1 := by
  refine ⟨?_, ?_, ?_⟩
  · intro hne
    obtain ⟨p, hp⟩ := hne
    obtain ⟨hpx, hpy⟩ := Finset.mem_product.mp (contributing_mem_grid X p hp)
    have hw8 : 8 ≤ X.width := by
      have h1 : 0 < X.width / 8 := lt_of_le_of_lt (Nat.zero_le p.1) (Finset.mem_range.mp hpx)
      omega
    have hh8 : 8 ≤ X.height := by
      have h1 : 0 < X.height / 8 := lt_of_le_of_lt (Nat.zero_le p.2) (Finset.mem_range.mp hpy)
      omega
    have hcard : (contributingWindows X).card ≠ 0 := Finset.card_ne_zero_of_mem hp
    rw [calculateSSIM, if_neg (by omega : ¬(X.width < 8 ∨ X.height < 8)), if_neg hcard]
    have hone : ∀ q ∈ contributingWindows X, windowSSIM X X (8 * q.1) (8 * q.2) = (1 : ℚ) :=
      fun q hq => windowSSIM_self X (8 * q.1) (8 * q.2) (contributing_winN X q hq)
    have hsum : ∑ q ∈ contributingWindows X, windowSSIM X X (8 * q.1) (8 * q.2)
        = ((contributingWindows X).card : ℚ) := by
      rw [Finset.sum_congr rfl hone, Finset.sum_const, nsmul_eq_mul, mul_one]
    rw [hsum, div_self (by exact_mod_cast hcard)]
    norm_num
  · unfold calculateSSIM
    split
    · norm_num
    · split
      · norm_num
      · exact le_max_left 0 _
  · unfold calculateSSIM
    split
    · norm_num
    · split
      · norm_num
      · exact max_le (by norm_num) (min_le_left 1 _)

/-- C6 witness: an 8x8 fully-opaque bitmap has a contributing window and its
self-SSIM is exactly 1. -/
theorem ssim_self_witness : calculateSSIM whiteOpaque8 whiteOpaque8 = 1 :=
  (ssim_self_and_bounds whiteOpaque8 whiteOpaque8 whiteOpaque8).1 ⟨(0, 0), by decide⟩

/-- C5 (amended): only images strictly narrower or shorter than one 8x8
window short-circuit to SSIM 1; an exactly 8x8 image is processed as a
window (see the counterexample for the failing at-most-8 case). -/
theorem ssim_small_short_circuit (X Y : ImageData)
    (h : X.width < 8 ∨ X.height < 8) : calculateSSIM X Y = 1 := by
  rw [calculateSSIM, if_pos h]

/-- C5 witness: a 4x4 image short-circuits to SSIM exactly 1. -/
theorem ssim_small_short_circuit_witness : calculateSSIM smallWhite4 smallWhite4 = 1 :=
  ssim_small_short_circuit smallWhite4 smallWhite4 (Or.inl (by decide))

/-- C5 counterexample: an exactly 8x8 pair of equal-sized bitmaps (opaque
black against opaque white) has both dimensions at most 8, yet its SSIM is
not 1 - the 8x8 case does not short-circuit. -/
theorem ssim_8x8_counterexample :
    blackOpaque8.width ≤ 8 ∧ blackOpaque8.height ≤ 8 ∧
    calculateSSIM blackOpaque8 whiteOpaque8 ≠ 1 := by
  refine ⟨by decide, by decide, ?_⟩
  have hc64 : (Finset.range 8 ×ˢ Finset.range 8).card = 64 := by decide
  have hwp : windowPixels blackOpaque8 0 0 = Finset.range 8 ×ˢ Finset.range 8 := by
    apply Finset.filter_true_of_mem
    intro p _
    have hmod : ((p.2 * 8 + p.1) * 4 + 3) % 4 = 3 := by omega
    simp [blackOpaque8, pixIndex, hmod]
  have hN : winN blackOpaque8 0 0 = 64 := by
    rw [winN, hwp, hc64]
  have hlumX : ∀ p ∈ Finset.range 8 ×ˢ Finset.range 8,
      lum blackOpaque8 (pixIndex blackOpaque8.width (0 + p.1) (0 + p.2)) = 0 := by
    intro p _
    have h0 : ¬ ((p.2 * 8 + p.1) * 4) % 4 = 3 := by omega
    have h1 : ¬ ((p.2 * 8 + p.1) * 4 + 1) % 4 = 3 := by omega
    have h2 : ¬ ((p.2 * 8 + p.1) * 4 + 2) % 4 = 3 := by omega
    simp [lum, blackOpaque8, pixIndex, h0, h1, h2]
  have hlumY : ∀ p ∈ Finset.range 8 ×ˢ Finset.range 8,
      lum whiteOpaque8 (pixIndex blackOpaque8.width (0 + p.1) (0 + p.2)) = 255 := by
    intro p _
    show (0.299 : ℚ) * 255 + 0.587 * 255 + 0.114 * 255 = 255
    norm_num
  have hlumX2 : ∀ p ∈ Finset.range 8 ×ˢ Finset.range 8,
      (lum blackOpaque8 (pixIndex blackOpaque8.width (0 + p.1) (0 + p.2))) ^ 2 = 0 :=
    fun p hp => by rw [hlumX p hp]; norm_num
  have hlumY2 : ∀ p ∈ Finset.range 8 ×ˢ Finset.range 8,
      (lum whiteOpaque8 (pixIndex blackOpaque8.width (0 + p.1) (0 + p.2))) ^ 2 = 65025 :=
    fun p hp => by rw [hlumY p hp]; norm_num
  have hlumXY : ∀ p ∈ Finset.range 8 ×ˢ Finset.range 8,
      lum blackOpaque8 (pixIndex blackOpaque8.width (0 + p.1) (0 + p.2)) *
        lum whiteOpaque8 (pixIndex blackOpaque8.width (0 + p.1) (0 + p.2)) = 0 :=
    fun p hp => by rw [hlumX p hp, hlumY p hp]; norm_num
  have hSX : winSumX blackOpaque8 0 0 = 0 := by
    rw [winSumX, hwp, Finset.sum_congr rfl hlumX]
    simp
  have hSY : winSumY blackOpaque8 whiteOpaque8 0 0 = 16320 := by
    rw [winSumY, hwp, Finset.sum_congr rfl hlumY, Finset.sum_const, hc64, nsmul_eq_mul]
    norm_num
  have hSX2 : winSumX2 blackOpaque8 0 0 = 0 := by
    rw [winSumX2, hwp, Finset.sum_congr rfl hlumX2]
    simp
  have hSY2 : winSumY2 blackOpaque8 whiteOpaque8 0 0 = 4161600 := by
    rw [winSumY2, hwp, Finset.sum_congr rfl hlumY2, Finset.sum_const, hc64, nsmul_eq_mul]
    norm_num
  have hSXY : winSumXY blackOpaque8 whiteOpaque8 0 0 = 0 := by
    rw [winSumXY, hwp, Finset.sum_congr rfl hlumXY]
    simp
  have h1 : windowSSIM blackOpaque8 whiteOpaque8 0 0 < 1 := by
    rw [windowSSIM, hN, hSX, hSY, hSX2, hSY2, hSXY]
    norm_num [ssimC1, ssimC2]
  have h0 : 0 < windowSSIM blackOpaque8 whiteOpaque8 0 0 := by
    rw [windowSSIM, hN, hSX, hSY, hSX2, hSY2, hSXY]
    norm_num [ssimC1, ssimC2]
  have hcw : contributingWindows blackOpaque8 = {(0, 0)} := by decide
  have hcard : (contributingWindows blackOpaque8).card = 1 := by rw [hcw]; rfl
  rw [calculateSSIM, if_neg (by decide : ¬(blackOpaque8.width < 8 ∨ blackOpaque8.height < 8)),
    if_neg (by rw [hcard]; norm_num), hcw, Finset.sum_singleton, Finset.card_singleton]
  have hv : windowSSIM blackOpaque8 whiteOpaque8 (8 * 0) (8 * 0)
      = windowSSIM blackOpaque8 whiteOpaque8 0 0 := by norm_num
  rw [hv, Nat.cast_one, div_one, min_eq_right h1.le, max_eq_right (le_of_lt h0)]
  exact h1.ne

/-! ## Helper lemmas: heat map -/

theorem heatClamp_of_nonpos (x : ℚ) (h : x ≤ 0) : heatClamp x = 0 := by
  unfold heatClamp
  exact max_eq_left (le_trans (min_le_right 1 x) h)

theorem heatClamp_of_ge_one (x : ℚ) (h : 1 ≤ x) : heatClamp x = 1 := by
  unfold heatClamp
  rw [min_eq_left h]
  exact max_eq_right (by norm_num)

theorem heatClamp_mem (x : ℚ) : 0 ≤ heatClamp x ∧ heatClamp x ≤ 1 :=
  ⟨le_max_left 0 _, max_le (by norm_num) (min_le_left 1 x)⟩

theorem heatPos_nonneg (x : ℚ) : 0 ≤ heatPos x := by
  unfold heatPos
  have h4 : ((heatStops.length : ℚ) - 1) = 4 := by norm_num [heatStops]
  rw [h4]
  nlinarith [(heatClamp_mem x).1]

theorem heatPos_le (x : ℚ) : heatPos x ≤ 4 := by
  unfold heatPos
  have h4 : ((heatStops.length : ℚ) - 1) = 4 := by norm_num [heatStops]
  rw [h4]
  nlinarith [(heatClamp_mem x).1, (heatClamp_mem x).2]

theorem heatIndex_le_four (x : ℚ) : heatIndex x ≤ 4 := by
  unfold heatIndex
  have h := Nat.floor_mono (heatPos_le x)
  have h4 : ⌊(4 : ℚ)⌋₊ = 4 := by norm_num
  omega

theorem heatT_bounds (x : ℚ) :
    0 ≤ heatPos x - (heatIndex x : ℚ) ∧ heatPos x - (heatIndex x : ℚ) ≤ 1 := by
  constructor
  · have := Nat.floor_le (heatPos_nonneg x)
    unfold heatIndex
    linarith
  · have := Nat.lt_floor_add_one (heatPos x)
    unfold heatIndex
    linarith

theorem heatStops_getD_bounds (k : ℕ) :
    0 ≤ (heatStops.getD k (0, 0, 0)).1 ∧ (heatStops.getD k (0, 0, 0)).1 ≤ 255 ∧
    0 ≤ (heatStops.getD k (0, 0, 0)).2.1 ∧ (heatStops.getD k (0, 0, 0)).2.1 ≤ 255 ∧
    0 ≤ (heatStops.getD k (0, 0, 0)).2.2 ∧ (heatStops.getD k (0, 0, 0)).2.2 ≤ 255 := by
  match k with
  | 0 => decide
  | 1 => decide
  | 2 => decide
  | 3 => decide
  | 4 => decide
  | n + 5 =>
    have hlen : heatStops.length ≤ n + 5 := by simp [heatStops]
    rw [List.getD_eq_default _ _ hlen]
    decide

theorem jsRound_interp_bounds (a b t : ℚ) (ha0 : 0 ≤ a) (ha1 : a ≤ 255)
    (hb0 : 0 ≤ b) (hb1 : b ≤ 255) (ht0 : 0 ≤ t) (ht1 : t ≤ 1) :
    0 ≤ jsRound (a * (1 - t) + b * t) ∧ jsRound (a * (1 - t) + b * t) ≤ 255 := by
  have hx0 : 0 ≤ a * (1 - t) + b * t := by nlinarith
  have hx1 : a * (1 - t) + b * t ≤ 255 := by nlinarith
  unfold jsRound
  constructor
  · exact Int.le_floor.mpr (by push_cast; linarith)
  · have h := Int.floor_lt.mpr (show a * (1 - t) + b * t + 1 / 2 < ((256 : ℤ) : ℚ) by push_cast; linarith)
    omega

theorem getHeatMapColor_nonpos (x : ℚ) (h : x ≤ 0) : getHeatMapColor x = (0, 0, 255) := by
  have hp : heatPos x = 0 := by
    unfold heatPos
    rw [heatClamp_of_nonpos x h, zero_mul]
  have hi : heatIndex x = 0 := by
    unfold heatIndex
    rw [hp]
    norm_num
  unfold getHeatMapColor
  rw [hp, hi]
  norm_num [heatStops, jsRound]

theorem getHeatMapColor_ge_one (x : ℚ) (h : 1 ≤ x) : getHeatMapColor x = (255, 0, 0) := by
  have hp : heatPos x = 4 := by
    unfold heatPos
    have h4 : ((heatStops.length : ℚ) - 1) = 4 := by norm_num [heatStops]
    rw [heatClamp_of_ge_one x h, h4, one_mul]
  have hi : heatIndex x = 4 := by
    unfold heatIndex
    rw [hp]
    norm_num
  unfold getHeatMapColor
  rw [hp, hi]
  norm_num [heatStops, jsRound]

theorem hmDiff_self (X : ImageData) (i : ℕ) : hmDiff X X i = 0 := by
  simp [hmDiff]

theorem hmIntensity_self (X : ImageData) (i : ℕ) : hmIntensity X X i = 0 := by
  rw [hmIntensity, hmDiff_self]
  norm_num

/-! ## Claim theorems: heat map (C9, C10) -/

/-- C10: the ramp lookup is safe and total: the clamped position keeps both
stop indices within the 5-entry table, every returned component is an integer
in [0, 255], non-positive intensity yields blue (0,0,255) and intensity at
least 1 yields red (255,0,0). -/
theorem heatColor_safety (x : ℚ) :
    heatIndex x ≤ heatStops.length - 1 ∧
    min (heatIndex x + 1) (heatStops.length - 1) ≤ heatStops.length - 1 ∧
    (0 ≤ (getHeatMapColor x).1 ∧ (getHeatMapColor x).1 ≤ 255) ∧
    (0 ≤ (getHeatMapColor x).2.1 ∧ (getHeatMapColor x).2.1 ≤ 255) ∧
    (0 ≤ (getHeatMapColor x).2.2 ∧ (getHeatMapColor x).2.2 ≤ 255) ∧
    (x ≤ 0 → getHeatMapColor x = (0, 0, 255)) ∧
    (1 ≤ x → getHeatMapColor x = (255, 0, 0)) := by
  obtain ⟨ht0, ht1⟩ := heatT_bounds x
  have hci := heatStops_getD_bounds (heatIndex x)
  have hcj := heatStops_getD_bounds (min (heatIndex x + 1) (heatStops.length - 1))
  have hlen : heatStops.length - 1 = 4 := by simp [heatStops]
  refine ⟨by rw [hlen]; exact heatIndex_le_four x, min_le_right _ _, ?_, ?_, ?_,
    getHeatMapColor_nonpos x, getHeatMapColor_ge_one x⟩
  · exact jsRound_interp_bounds _ _ _
      (by exact_mod_cast hci.1) (by exact_mod_cast hci.2.1)
      (by exact_mod_cast hcj.1) (by exact_mod_cast hcj.2.1) ht0 ht1
  · exact jsRound_interp_bounds _ _ _
      (by exact_mod_cast hci.2.2.1) (by exact_mod_cast hci.2.2.2.1)
      (by exact_mod_cast hcj.2.2.1) (by exact_mod_cast hcj.2.2.2.1) ht0 ht1
  · exact jsRound_interp_bounds _ _ _
      (by exact_mod_cast hci.2.2.2.2.1) (by exact_mod_cast hci.2.2.2.2.2)
      (by exact_mod_cast hcj.2.2.2.2.1) (by exact_mod_cast hcj.2.2.2.2.2) ht0 ht1

/-- C10 witness: the ramp evaluated at intensities 2 and -1 hits the red and
blue endpoints. -/
theorem heatColor_safety_witness :
    getHeatMapColor 2 = (255, 0, 0) ∧ getHeatMapColor (-1) = (0, 0, 255) :=
  ⟨(heatColor_safety 2).2.2.2.2.2.2 (by norm_num),
   (heatColor_safety (-1)).2.2.2.2.2.1 (by norm_num)⟩

/-- C9 (amended): for identical bitmaps every output pixel whose reference is
fully opaque is blue (0,0,255) with the floor alpha 30; pixels whose
reference alpha is below 255 are emitted fully transparent (0,0,0,0); and in
general an opaque-reference pixel gets alpha max(30, intensity * 225). -/
theorem heatMap_identical (X Y : ImageData) (i : ℕ) :
    (¬ X.data (4 * i + 3) < 255 → heatMapPixel X X i = (0, 0, 255, (30 : ℚ))) ∧
    (X.data (4 * i + 3) < 255 → heatMapPixel X Y i = (0, 0, 0, (0 : ℚ))) ∧
    (¬ X.data (4 * i + 3) < 255 →
      (heatMapPixel X Y i).2.2.2 = max 30 (hmIntensity X Y i * 225)) := by
  refine ⟨?_, ?_, ?_⟩
  · intro h
    rw [heatMapPixel, if_neg h, hmIntensity_self, getHeatMapColor_nonpos 0 le_rfl]
    norm_num
  · intro h
    rw [heatMapPixel, if_pos h]
  · intro h
    rw [heatMapPixel, if_neg h]

/-- C9 witness: a fully-opaque pixel compared with itself gets the blue ramp
origin and the floor alpha 30. -/
theorem heatMap_identical_witness :
    heatMapPixel opaqueWhite1 opaqueWhite1 0 = (0, 0, 255, (30 : ℚ)) :=
  (heatMap_identical opaqueWhite1 opaqueWhite1 0).1 (by decide)

/-- C9 counterexample: on two identical bitmaps whose single pixel is not
fully opaque, the output pixel is (0,0,0,0) - alpha 0 and no blue - refuting
the claim that every pixel gets alpha 30 and the blue stop. -/
theorem heatMap_transparent_counterexample :
    heatMapPixel clearPixel1 clearPixel1 0 = (0, 0, 0, (0 : ℚ)) ∧
    heatMapPixel clearPixel1 clearPixel1 0 ≠ (0, 0, 255, (30 : ℚ)) := by
  have h : heatMapPixel clearPixel1 clearPixel1 0 = (0, 0, 0, (0 : ℚ)) := by
    rw [heatMapPixel, if_pos (by decide)]
  refine ⟨h, ?_⟩
  rw [h]
  norm_num [Prod.ext_iff]

/-! ## Claim theorems: flattening (C8) -/

/-- C8 counterexample: WebP is an accepted origin format that supports alpha,
yet neither the compression path nor the dead-zone probe flattens it onto a
white background - flattening only happens for image/png. -/
theorem flatten_webp_counterexample :
    formatSupportsAlpha "image/webp" = true ∧
    flattenForCompression "image/webp" = false ∧
    flattenForDeadZoneProbe "image/webp" = false := by
  refine ⟨by decide, by decide, by decide⟩

/-- C8 (amended): both the compression path and each dead-zone probe flatten
onto white exactly when the origin MIME type is image/png: the two paths
agree, PNG is flattened, and any flattened type is PNG - alpha-capable
non-PNG inputs are not flattened. -/
theorem flatten_png_only (t : String) :
    flattenForDeadZoneProbe t = flattenForCompression t ∧
    flattenForCompression "image/png" = true ∧
    (flattenForCompression t = true → t = "image/png") := by
  refine ⟨rfl, by decide, ?_⟩
  intro h
  exact eq_of_beq h

/-- C8 witness: the amended statement applied at the PNG MIME type. -/
theorem flatten_png_only_witness :
    flattenForCompression "image/png" = true ∧ "image/png" = "image/png" :=
  ⟨(flatten_png_only "image/png").2.1,
   (flatten_png_only "image/png").2.2 (flatten_png_only "image/png").2.1⟩

end Imagify

